import Mathlib

/-!
Verification of the opengrid-lite production-tracking core.

The repository ships a React web client (`src/web/src/App.tsx` plus two
legacy variants of the same dashboard).  The entity store and
query/command layer that the client talks to over REST is specified in
the repository's design document (§3–§5, §7); the store operations below
are modelled from that specification, while the client-side helpers
(status badge classes, the status cycle, the task-creation modal's
priority options) are embedded directly from the TypeScript source.
-/

namespace OpenGrid

/-- Error taxonomy of the command layer (spec §7): `NotFound`,
`InvalidArgument`, `DuplicateKey`. -/
inductive Err where
  | NotFound
  | InvalidArgument
  | DuplicateKey
deriving DecidableEq, Repr

/-- Project record (spec §3 and the `Project` interface in `App.tsx`). -/
structure Project where
  id : Nat
  name : String
  code : String
  status : String
  description : Option String
deriving DecidableEq, Repr

/-- Asset record (spec §3 and the `Asset` interface in `App.tsx`). -/
structure Asset where
  id : Nat
  project_id : Nat
  name : String
  asset_type : String
  status : String
  description : Option String
deriving DecidableEq, Repr

/-- Shot record (spec §3 and the `Shot` interface in `App.tsx`). -/
structure Shot where
  id : Nat
  project_id : Nat
  sequence : String
  name : String
  frame_start : Int
  frame_end : Int
  status : String
  description : Option String
deriving DecidableEq, Repr

/-- Task record (spec §3 and the `Task` interface in `App.tsx`). -/
structure Task where
  id : Nat
  entity_type : String
  entity_id : Nat
  name : String
  status : String
  assignee : Option String
  priority : Int
deriving DecidableEq, Repr

/-- Version record (spec §3 and the `Version` interface in `App.tsx`). -/
structure Version where
  id : Nat
  task_id : Nat
  version_number : Nat
  status : String
  path : Option String
  notes : Option String
  created_by : Option String
deriving DecidableEq, Repr

/-- Modelled from the spec: the Entity Store (§4.1) holding the five
entity kinds, each list in insertion order.  The spec leaves id
allocation to the storage engine; a single running counter is used
here. -/
structure Store where
  projects : List Project
  assets : List Asset
  shots : List Shot
  tasks : List Task
  versions : List Version
  nextId : Nat
deriving DecidableEq, Repr

/-- The empty store: no entities, ids start at 1. -/
def Store.init : Store :=
  { projects := [], assets := [], shots := [], tasks := [], versions := [], nextId := 1 }

/-- The closed asset-type enumeration (spec §3):
`asset_type ∈ \x7bcharacter, prop, environment, vehicle, fx\x7d`. -/
def assetTypes : List String :=
  ["character", "prop", "environment", "vehicle", "fx"]

/-- Modelled from the spec: `priority` is clamped to `[0,100]` by
`createTask` (§4.1). -/
def clampPriority (p : Int) : Int :=
  min 100 (max 0 p)

/-- Modelled from the spec: `createProject(name, code, description?)`
(§4.1).  Fails with `DuplicateKey` if `code` already exists
(case-insensitive compare); the code is stored uppercase and `status`
defaults to `active`. -/
def createProject (s : Store) (name code : String) (description : Option String) :
    Store × Except Err Project :=
  if ∃ p ∈ s.projects, p.code.toUpper = code.toUpper then
    (s, Except.error Err.DuplicateKey)
  else
    let p : Project :=
      { id := s.nextId, name := name, code := code.toUpper, status := "active",
        description := description }
    ({ s with projects := s.projects ++ [p], nextId := s.nextId + 1 }, Except.ok p)

/-- Look a project up by its (normalized) code. -/
def findProject (s : Store) (projectCode : String) : Option Project :=
  s.projects.find? (fun p => p.code == projectCode.toUpper)

/-- Modelled from the spec: `createAsset(projectCode, name, assetType,
description?)` (§4.1).  The argument `assetType` must be one of the
enumerated values, `InvalidArgument` otherwise; fails with `NotFound`
when `projectCode` has no matching project; `status` defaults to
`waiting`. -/
def createAsset (s : Store) (projectCode name assetType : String)
    (description : Option String) : Store × Except Err Asset :=
  if assetType ∈ assetTypes then
    match findProject s projectCode with
    | none => (s, Except.error Err.NotFound)
    | some p =>
      let a : Asset :=
        { id := s.nextId, project_id := p.id, name := name, asset_type := assetType,
          status := "waiting", description := description }
      ({ s with assets := s.assets ++ [a], nextId := s.nextId + 1 }, Except.ok a)
  else
    (s, Except.error Err.InvalidArgument)

/-- Modelled from the spec: `createShot(projectCode, sequence, name,
frameStart, frameEnd, description?)` (§4.1).  Fails with
`InvalidArgument` if `frameEnd < frameStart`, `NotFound` for an unknown
project, `DuplicateKey` if `(projectCode, name)` already exists. -/
def createShot (s : Store) (projectCode sequence name : String)
    (frameStart frameEnd : Int) (description : Option String) :
    Store × Except Err Shot :=
  if frameEnd < frameStart then
    (s, Except.error Err.InvalidArgument)
  else
    match findProject s projectCode with
    | none => (s, Except.error Err.NotFound)
    | some p =>
      if ∃ sh ∈ s.shots, sh.project_id = p.id ∧ sh.name = name then
        (s, Except.error Err.DuplicateKey)
      else
        let sh : Shot :=
          { id := s.nextId, project_id := p.id, sequence := sequence, name := name,
            frame_start := frameStart, frame_end := frameEnd, status := "waiting",
            description := description }
        ({ s with shots := s.shots ++ [sh], nextId := s.nextId + 1 }, Except.ok sh)

/-- Modelled from the spec: `createTask(entityType, entityId, name,
assignee?, priority)` (§4.1).  The parent must be an existing Asset or
Shot (`NotFound` otherwise); an `entityType` outside `\x7basset, shot\x7d` is a
bad enum value (`InvalidArgument`, §7); `status` defaults to `waiting`
and `priority` is clamped to `[0,100]`. -/
def createTask (s : Store) (entityType : String) (entityId : Nat) (name : String)
    (assignee : Option String) (priority : Int) : Store × Except Err Task :=
  if entityType = "asset" ∨ entityType = "shot" then
    if (entityType = "asset" ∧ ∃ a ∈ s.assets, a.id = entityId) ∨
       (entityType = "shot" ∧ ∃ sh ∈ s.shots, sh.id = entityId) then
      let t : Task :=
        { id := s.nextId, entity_type := entityType, entity_id := entityId,
          name := name, status := "waiting", assignee := assignee,
          priority := clampPriority priority }
      ({ s with tasks := s.tasks ++ [t], nextId := s.nextId + 1 }, Except.ok t)
    else
      (s, Except.error Err.NotFound)
  else
    (s, Except.error Err.InvalidArgument)

/-- A partial update for `updateTask` (spec §4.1): only the supplied
fields change. -/
structure TaskPatch where
  status : Option String := none
  assignee : Option String := none
  priority : Option Int := none
deriving DecidableEq, Repr

/-- Apply a `TaskPatch` to a task: each supplied field overwrites the
old value, every omitted field is kept. -/
def applyPatch (t : Task) (p : TaskPatch) : Task :=
  { t with
    status := p.status.getD t.status
    assignee := match p.assignee with
      | some a => some a
      | none => t.assignee
    priority := p.priority.getD t.priority }

/-- Modelled from the spec: `updateTask(taskId, \x7bstatus?, assignee?,
priority?\x7d)` (§4.1).  Fails with `NotFound` if `taskId` is unknown;
otherwise a partial update in which only supplied fields change, with
no validation of status-transition order. -/
def updateTask (s : Store) (taskId : Nat) (patch : TaskPatch) :
    Store × Except Err Task :=
  match s.tasks.find? (fun t => t.id == taskId) with
  | none => (s, Except.error Err.NotFound)
  | some t =>
    ({ s with tasks := s.tasks.map (fun u => if u.id = taskId then applyPatch u patch else u) },
     Except.ok (applyPatch t patch))

/-- The version numbers recorded for one task in a version list, in
insertion order. -/
def versionNumbersL (vs : List Version) (taskId : Nat) : List Nat :=
  (vs.filter (fun v => v.task_id == taskId)).map Version.version_number

/-- The version numbers recorded for one task, in insertion order. -/
def versionNumbers (s : Store) (taskId : Nat) : List Nat :=
  versionNumbersL s.versions taskId

/-- Modelled from the spec: the read-max step of `createVersion` (§4.1):
the largest `version_number` already stored for the task, `0` when the
task has no versions. -/
def maxVersionNumber (s : Store) (taskId : Nat) : Nat :=
  (versionNumbers s taskId).foldl max 0

/-- Modelled from the spec: `createVersion(taskId, \x7bpath?, notes?,
createdBy?\x7d)` (§4.1).  Fails with `NotFound` for an unknown task;
`version_number` is assigned as (max existing version number for this
task) + 1, so the first version gets 1; `status` defaults to
`pending_review`. -/
def createVersion (s : Store) (taskId : Nat)
    (path notes createdBy : Option String) : Store × Except Err Version :=
  if ∃ t ∈ s.tasks, t.id = taskId then
    let v : Version :=
      { id := s.nextId, task_id := taskId,
        version_number := maxVersionNumber s taskId + 1,
        status := "pending_review", path := path, notes := notes,
        created_by := createdBy }
    ({ s with versions := s.versions ++ [v], nextId := s.nextId + 1 }, Except.ok v)
  else
    (s, Except.error Err.NotFound)

/-- Modelled from the spec: `findAssets(projectCode, assetType?)`
(§4.1) — the assets of the named project, filtered by the optional
type, in insertion order; the empty-list policy is used for an unknown
project (§4.1 allows either policy for id-keyed listings). -/
def findAssets (s : Store) (projectCode : String) (assetType : Option String) :
    List Asset :=
  match findProject s projectCode with
  | none => []
  | some p =>
    s.assets.filter (fun a =>
      a.project_id == p.id &&
        match assetType with
        | none => true
        | some t => a.asset_type == t)

/-- A command against the store: one create/update operation of the
query/command layer (§4.1). -/
inductive Cmd where
  | createProject (name code : String) (description : Option String)
  | createAsset (projectCode name assetType : String) (description : Option String)
  | createShot (projectCode sequence name : String) (frameStart frameEnd : Int)
      (description : Option String)
  | createTask (entityType : String) (entityId : Nat) (name : String)
      (assignee : Option String) (priority : Int)
  | updateTask (taskId : Nat) (patch : TaskPatch)
  | createVersion (taskId : Nat) (path notes createdBy : Option String)
deriving DecidableEq, Repr

/-- Forget the returned entity of an operation, keeping the resulting
store and the error, if any. -/
def toResult {α : Type} : Store × Except Err α → Store × Option Err
  | (s, Except.ok _) => (s, none)
  | (s, Except.error e) => (s, some e)

/-- Execute one command against the store. -/
def applyCmd (s : Store) (c : Cmd) : Store × Option Err :=
  match c with
  | Cmd.createProject name code d => toResult (createProject s name code d)
  | Cmd.createAsset pc name ty d => toResult (createAsset s pc name ty d)
  | Cmd.createShot pc seq name fs fe d => toResult (createShot s pc seq name fs fe d)
  | Cmd.createTask et eid name asg pr => toResult (createTask s et eid name asg pr)
  | Cmd.updateTask tid patch => toResult (updateTask s tid patch)
  | Cmd.createVersion tid p n cb => toResult (createVersion s tid p n cb)

/-- Run a sequence of commands, keeping the stores the commands
produce (a failed command keeps the previous store). -/
def run : Store → List Cmd → Store
  | s, [] => s
  | s, c :: cs => run (applyCmd s c).1 cs

/-- A store is reachable when some command sequence produces it from
the empty store. -/
def Reachable (s : Store) : Prop :=
  ∃ cs : List Cmd, run Store.init cs = s

namespace AppTsx

/-- The `statusBadge` helper of `src/web/src/App.tsx` (lines 161–173):
a record lookup `map[status] || 'empty string if absent or falsy'`. -/
def statusBadge (status : String) : String :=
  if status = "active" then "rw-badge--success"
  else if status = "approved" then "rw-badge--success"
  else if status = "complete" then "rw-badge--success"
  else if status = "in_progress" then "rw-badge--info"
  else if status = "review" then "rw-badge--warning"
  else if status = "waiting" then ""
  else if status = "on_hold" then ""
  else if status = "pending_review" then "rw-badge--warning"
  else ""

/-- The `STATUS_CYCLE` record of `src/web/src/App.tsx` (lines 175–180),
as a partial map on status strings. -/
def STATUS_CYCLE (status : String) : Option String :=
  if status = "waiting" then some "in_progress"
  else if status = "in_progress" then some "review"
  else if status = "review" then some "approved"
  else if status = "approved" then some "waiting"
  else none

/-- The next status that `cycleStatus` in `TaskRow` requests
(`STATUS_CYCLE[task.status] || 'waiting'`, `App.tsx` lines 215–219). -/
def cycleStatus (status : String) : String :=
  (STATUS_CYCLE status).getD "waiting"

/-- The values the priority `select` of `CreateTaskModal` can hold
(`App.tsx` lines 986–993). -/
def taskPriorityOptions : List String :=
  ["25", "50", "75"]

/-- The initial value of the priority state in `CreateTaskModal`
(`App.tsx` line 952). -/
def defaultTaskPriority : String :=
  "50"

/-- The `Number(priority)` conversion the modal applies before sending
the request, modelled for the non-negative decimal-digit strings the
select can hold (decimal value of the digit characters). -/
def jsNumber (s : String) : Int :=
  (s.data.foldl (fun acc c => acc * 10 + (c.toNat - 48)) 0 : Nat)

end AppTsx

namespace Part000

/-- The `statusBadge` helper of the legacy variant
`src/unnamed/part_000` (lines 84–95): same record lookup as the
`App.tsx` one but without the `pending_review` entry. -/
def statusBadge (status : String) : String :=
  if status = "active" then "rw-badge--success"
  else if status = "approved" then "rw-badge--success"
  else if status = "complete" then "rw-badge--success"
  else if status = "in_progress" then "rw-badge--info"
  else if status = "review" then "rw-badge--warning"
  else if status = "waiting" then ""
  else if status = "on_hold" then ""
  else ""

end Part000

namespace Part001

/-- The switch-based `statusClass` helper of the legacy variant
`src/unnamed/part_001` (lines 245–260).  Note it has no `active` case:
`active` falls through to the default branch. -/
def statusClass (status : String) : String :=
  if status = "approved" ∨ status = "complete" then "rw-badge--success"
  else if status = "in_progress" then "rw-badge--info"
  else if status = "review" then "rw-badge--warning"
  else if status = "waiting" ∨ status = "on_hold" then ""
  else ""

end Part001

/-! Uppercasing is idempotent, so codes stored uppercase stay fixed
under the case-insensitive (uppercase-both-sides) comparison. -/

theorem char_toNat_ofNat {m : Nat} (h : m.isValidChar) : (Char.ofNat m).toNat = m := by
  rw [Char.ofNat, dif_pos h]
  rfl

theorem char_toUpper_of_cond {c : Char} (h : 97 ≤ c.toNat ∧ c.toNat ≤ 122) :
    c.toUpper = Char.ofNat (c.toNat - 32) := by
  rw [Char.toUpper]
  exact if_pos h

theorem char_toUpper_of_not_cond {c : Char} (h : ¬(97 ≤ c.toNat ∧ c.toNat ≤ 122)) :
    c.toUpper = c := by
  rw [Char.toUpper]
  exact if_neg h

theorem char_toUpper_idem (c : Char) : c.toUpper.toUpper = c.toUpper := by
  by_cases h : 97 ≤ c.toNat ∧ c.toNat ≤ 122
  · rw [char_toUpper_of_cond h]
    apply char_toUpper_of_not_cond
    have hv : (c.toNat - 32).isValidChar := by
      left
      omega
    rw [char_toNat_ofNat hv]
    omega
  · rw [char_toUpper_of_not_cond h, char_toUpper_of_not_cond h]

theorem string_toUpper_idem (s : String) : s.toUpper.toUpper = s.toUpper := by
  simp only [String.toUpper, String.map_eq]
  congr 1
  simp only [List.map_map]
  exact List.map_congr_left (fun c _ => char_toUpper_idem c)

/-! Store invariants, preserved by every command (spec §3, §8). -/

/-- Project invariant: stored codes are uppercase, and no two projects
share a code up to case. -/
def ProjectsOk (ps : List Project) : Prop :=
  (∀ p ∈ ps, p.code.toUpper = p.code) ∧
  ps.Pairwise (fun a b => a.code.toUpper ≠ b.code.toUpper)

/-- Shot invariant: `frame_end ≥ frame_start` for every stored shot. -/
def ShotsOk (shs : List Shot) : Prop :=
  ∀ sh ∈ shs, sh.frame_start ≤ sh.frame_end

/-- Version invariant: for every task, the recorded version numbers
are exactly `1, 2, …, n` in insertion order. -/
def VersionsOk (vs : List Version) : Prop :=
  ∀ t, versionNumbersL vs t = List.range' 1 (versionNumbersL vs t).length

/-- The conjunction of the store invariants. -/
def StoreInv (s : Store) : Prop :=
  VersionsOk s.versions ∧ ProjectsOk s.projects ∧ ShotsOk s.shots

theorem foldl_max_range' (n : Nat) : (List.range' 1 n).foldl max 0 = n := by
  induction n with
  | zero => rfl
  | succ k ih =>
    rw [List.range'_concat, List.foldl_append, ih]
    show max k (1 + 1 * k) = k + 1
    omega

theorem storeInv_init : StoreInv Store.init := by
  refine ⟨fun t => rfl, ⟨?_, ?_⟩, ?_⟩ <;> simp [Store.init, ProjectsOk, ShotsOk]

theorem storeInv_createProject (s : Store) (name code : String) (d : Option String)
    (h : StoreInv s) : StoreInv (createProject s name code d).1 := by
  unfold createProject
  split_ifs with hc
  · exact h
  · obtain ⟨hV, ⟨hup, hpw⟩, hS⟩ := h
    push_neg at hc
    refine ⟨hV, ⟨?_, ?_⟩, hS⟩
    · intro q hq
      rcases List.mem_append.mp hq with hq | hq
      · exact hup q hq
      · rcases List.mem_singleton.mp hq with rfl
        exact string_toUpper_idem code
    · rw [List.pairwise_append]
      refine ⟨hpw, List.pairwise_singleton _ _, ?_⟩
      intro a ha b hb
      rcases List.mem_singleton.mp hb with rfl
      show a.code.toUpper ≠ (code.toUpper).toUpper
      rw [string_toUpper_idem code]
      exact hc a ha

theorem storeInv_createAsset (s : Store) (pc name ty : String) (d : Option String)
    (h : StoreInv s) : StoreInv (createAsset s pc name ty d).1 := by
  unfold createAsset
  split_ifs with ht
  · cases hf : findProject s pc with
    | none => exact h
    | some p => exact h
  · exact h

theorem storeInv_createShot (s : Store) (pc seq name : String) (fs fe : Int)
    (d : Option String) (h : StoreInv s) : StoreInv (createShot s pc seq name fs fe d).1 := by
  unfold createShot
  split_ifs with hfr
  · exact h
  · cases hf : findProject s pc with
    | none => exact h
    | some p =>
      simp only []
      split_ifs with hdup
      · exact h
      · obtain ⟨hV, hP, hS⟩ := h
        refine ⟨hV, hP, ?_⟩
        intro sh hsh
        rcases List.mem_append.mp hsh with hsh | hsh
        · exact hS sh hsh
        · rcases List.mem_singleton.mp hsh with rfl
          show fs ≤ fe
          omega

theorem storeInv_createTask (s : Store) (et : String) (eid : Nat) (name : String)
    (asg : Option String) (pr : Int) (h : StoreInv s) :
    StoreInv (createTask s et eid name asg pr).1 := by
  unfold createTask
  split_ifs <;> exact h

theorem storeInv_updateTask (s : Store) (tid : Nat) (patch : TaskPatch)
    (h : StoreInv s) : StoreInv (updateTask s tid patch).1 := by
  unfold updateTask
  cases hf : s.tasks.find? (fun t => t.id == tid) with
  | none => exact h
  | some t => exact h

theorem storeInv_createVersion (s : Store) (tid : Nat) (p n cb : Option String)
    (h : StoreInv s) : StoreInv (createVersion s tid p n cb).1 := by
  unfold createVersion
  split_ifs with ht
  · obtain ⟨hV, hP, hS⟩ := h
    refine ⟨?_, hP, hS⟩
    intro t
    show versionNumbersL (s.versions ++ [_]) t = _
    rw [versionNumbersL, List.filter_append, List.map_append]
    by_cases hteq : tid = t
    · subst hteq
      have hfil :
          (List.filter (fun v => v.task_id == tid)
            [(⟨s.nextId, tid, maxVersionNumber s tid + 1, "pending_review", p, n, cb⟩ : Version)])
          = [⟨s.nextId, tid, maxVersionNumber s tid + 1, "pending_review", p, n, cb⟩] := by
        simp
      rw [hfil]
      set L := List.map Version.version_number
        (List.filter (fun v => v.task_id == tid) s.versions) with hLdef
      obtain ⟨nn, hn⟩ : ∃ nn, L = List.range' 1 nn := ⟨L.length, hV tid⟩
      have hmax : maxVersionNumber s tid = nn := by
        have hfold : maxVersionNumber s tid = L.foldl max 0 := rfl
        rw [hfold, hn, foldl_max_range']
      simp only [List.map_cons, List.map_nil]
      rw [hmax, hn]
      have hlen : (List.range' 1 nn ++ [nn + 1]).length = nn + 1 := by
        simp
      rw [hlen, List.range'_concat]
      have h1 : 1 + 1 * nn = nn + 1 := by omega
      rw [h1]
    · have hfil :
          (List.filter (fun v => v.task_id == t)
            [(⟨s.nextId, tid, maxVersionNumber s tid + 1, "pending_review", p, n, cb⟩ : Version)])
          = [] := by
        simp [hteq]
      rw [hfil]
      simp only [List.map_nil, List.append_nil]
      exact hV t
  · exact h

theorem toResult_fst {α : Type} (r : Store × Except Err α) : (toResult r).1 = r.1 := by
  obtain ⟨a, b⟩ := r
  cases b <;> rfl

theorem storeInv_applyCmd (s : Store) (c : Cmd) (h : StoreInv s) :
    StoreInv (applyCmd s c).1 := by
  cases c with
  | createProject name code d =>
    rw [applyCmd, toResult_fst]; exact storeInv_createProject s name code d h
  | createAsset pc name ty d =>
    rw [applyCmd, toResult_fst]; exact storeInv_createAsset s pc name ty d h
  | createShot pc seq name fs fe d =>
    rw [applyCmd, toResult_fst]; exact storeInv_createShot s pc seq name fs fe d h
  | createTask et eid name asg pr =>
    rw [applyCmd, toResult_fst]; exact storeInv_createTask s et eid name asg pr h
  | updateTask tid patch =>
    rw [applyCmd, toResult_fst]; exact storeInv_updateTask s tid patch h
  | createVersion tid p n cb =>
    rw [applyCmd, toResult_fst]; exact storeInv_createVersion s tid p n cb h

theorem storeInv_run (cs : List Cmd) (s : Store) (h : StoreInv s) :
    StoreInv (run s cs) := by
  induction cs generalizing s with
  | nil => exact h
  | cons c cs ih => exact ih (applyCmd s c).1 (storeInv_applyCmd s c h)

theorem storeInv_reachable {s : Store} (h : Reachable s) : StoreInv s := by
  obtain ⟨cs, rfl⟩ := h
  exact storeInv_run cs Store.init storeInv_init

/-! Error paths leave the store unchanged, operation by operation. -/

theorem toUpper_eq (s : String) : s.toUpper = String.mk (s.data.map Char.toUpper) :=
  String.map_eq _ _

theorem createProject_error_fst (s : Store) (name code : String) (d : Option String)
    (e : Err) (h : (createProject s name code d).2 = Except.error e) :
    (createProject s name code d).1 = s := by
  unfold createProject at h ⊢
  split_ifs at h ⊢
  all_goals rfl

theorem createAsset_error_fst (s : Store) (pc name ty : String) (d : Option String)
    (e : Err) (h : (createAsset s pc name ty d).2 = Except.error e) :
    (createAsset s pc name ty d).1 = s := by
  unfold createAsset at h ⊢
  split_ifs at h ⊢
  · cases hf : findProject s pc with
    | none => rfl
    | some p => rw [hf] at h; simp at h
  · rfl

theorem createShot_error_fst (s : Store) (pc seq name : String) (fs fe : Int)
    (d : Option String) (e : Err) (h : (createShot s pc seq name fs fe d).2 = Except.error e) :
    (createShot s pc seq name fs fe d).1 = s := by
  unfold createShot at h ⊢
  split_ifs at h ⊢
  · rfl
  · cases hf : findProject s pc with
    | none => rfl
    | some p =>
      rw [hf] at h
      dsimp only at h ⊢
      split_ifs at h ⊢
      all_goals rfl

theorem createTask_error_fst (s : Store) (et : String) (eid : Nat) (name : String)
    (asg : Option String) (pr : Int) (e : Err)
    (h : (createTask s et eid name asg pr).2 = Except.error e) :
    (createTask s et eid name asg pr).1 = s := by
  unfold createTask at h ⊢
  split_ifs at h ⊢
  all_goals rfl

theorem updateTask_error_fst (s : Store) (tid : Nat) (patch : TaskPatch) (e : Err)
    (h : (updateTask s tid patch).2 = Except.error e) :
    (updateTask s tid patch).1 = s := by
  unfold updateTask at h ⊢
  cases hf : s.tasks.find? (fun t => t.id == tid) with
  | none => rfl
  | some t => rw [hf] at h; simp at h

theorem createVersion_error_fst (s : Store) (tid : Nat) (p n cb : Option String)
    (e : Err) (h : (createVersion s tid p n cb).2 = Except.error e) :
    (createVersion s tid p n cb).1 = s := by
  unfold createVersion at h ⊢
  split_ifs at h ⊢
  all_goals rfl

theorem toResult_error {α : Type} (r : Store × Except Err α) (e : Err)
    (h : (toResult r).2 = some e) : r.2 = Except.error e := by
  obtain ⟨a, b⟩ := r
  cases b with
  | ok x => simp [toResult] at h
  | error e2 =>
    simp [toResult] at h
    rw [h]

/-! Concrete fixtures used by the witnesses. -/

/-- The end-to-end scenario of spec §8: a project, an asset, a task and
two published versions. -/
def demoCmds : List Cmd :=
  [Cmd.createProject "My Film" "MYFILM" none,
   Cmd.createAsset "MYFILM" "hero" "character" none,
   Cmd.createTask "asset" 2 "model" (some "alejandro") 50,
   Cmd.createVersion 3 (some "/publish/hero_model_v001.usd") none (some "alejandro"),
   Cmd.createVersion 3 none none none]

/-- The store the end-to-end scenario produces. -/
def demoStore : Store := run Store.init demoCmds

/-- A one-project history used by the duplicate-code witness. -/
def demoProjectCmds : List Cmd := [Cmd.createProject "My Film" "MyFilm" none]

/-- The store the one-project history produces. -/
def demoProjectStore : Store := run Store.init demoProjectCmds

/-- The project record the one-project history stores. -/
def demoInsertedProject : Project :=
  { id := 1
    name := "My Film"
    code := "MyFilm".toUpper
    status := "active"
    description := none }

/-- A concrete task to update. -/
def demoTask : Task :=
  { id := 1, entity_type := "asset", entity_id := 1, name := "model",
    status := "waiting", assignee := some "alejandro", priority := 50 }

/-- A store holding just `demoTask`. -/
def demoTaskStore : Store :=
  { Store.init with tasks := [demoTask], nextId := 2 }

/-- A concrete character asset. -/
def demoAssetA : Asset :=
  { id := 2, project_id := 1, name := "hero", asset_type := "character",
    status := "waiting", description := none }

/-- A concrete prop asset. -/
def demoAssetB : Asset :=
  { id := 3, project_id := 1, name := "table", asset_type := "prop",
    status := "waiting", description := none }

/-- A concrete project. -/
def demoProject : Project :=
  { id := 1, name := "My Film", code := "MYFILM", status := "active",
    description := none }

/-- A store with one project and two assets of different types. -/
def demoAssetStore : Store :=
  { Store.init with
    projects := [demoProject]
    assets := [demoAssetA, demoAssetB]
    nextId := 4 }

/-! The claims. -/

/-- C1: in every reachable store, the version numbers recorded for any
task are exactly `1, 2, …, n` in insertion order — `createVersion`
assigns `(max existing version_number for this task) + 1` starting at
1, so the sequence is strictly increasing by 1 with no gaps or
duplicates. -/
theorem createVersion_numbers_sequential (s : Store) (hs : Reachable s) (t : Nat) :
    versionNumbers s t = List.range' 1 (versionNumbers s t).length :=
  (storeInv_reachable hs).1 t

theorem createVersion_numbers_sequential_witness :
    Reachable demoStore ∧
      versionNumbers demoStore 3 = List.range' 1 (versionNumbers demoStore 3).length :=
  ⟨⟨demoCmds, rfl⟩, createVersion_numbers_sequential demoStore ⟨demoCmds, rfl⟩ 3⟩

/-- C2: a `createProject` whose code collides case-insensitively with
an existing project fails with `DuplicateKey` and leaves the store
unchanged; in every reachable store the project codes are stored
uppercase and are unique up to case. -/
theorem createProject_duplicate_code (s : Store) (hs : Reachable s)
    (name code : String) (d : Option String) (p : Project) (hp : p ∈ s.projects)
    (hcol : p.code.toUpper = code.toUpper) :
    createProject s name code d = (s, Except.error Err.DuplicateKey) ∧
      (∀ q ∈ s.projects, q.code.toUpper = q.code) ∧
      s.projects.Pairwise (fun a b => a.code.toUpper ≠ b.code.toUpper) := by
  obtain ⟨-, ⟨hup, hpw⟩, -⟩ := storeInv_reachable hs
  refine ⟨?_, hup, hpw⟩
  unfold createProject
  rw [if_pos ⟨p, hp, hcol⟩]

theorem createProject_duplicate_code_witness :
    Reachable demoProjectStore ∧
      createProject demoProjectStore "Other" "myfilm" none
        = (demoProjectStore, Except.error Err.DuplicateKey) := by
  have hr : Reachable demoProjectStore := ⟨demoProjectCmds, rfl⟩
  have hp : demoInsertedProject ∈ demoProjectStore.projects := by
    show demoInsertedProject ∈ [demoInsertedProject]
    exact List.mem_singleton_self _
  have hcol : demoInsertedProject.code.toUpper = "myfilm".toUpper := by
    show ("MyFilm".toUpper).toUpper = "myfilm".toUpper
    rw [string_toUpper_idem, toUpper_eq, toUpper_eq]
    decide
  exact ⟨hr,
    (createProject_duplicate_code demoProjectStore hr "Other" "myfilm" none
      demoInsertedProject hp hcol).1⟩

/-- C3: `createShot` with `frameEnd < frameStart` fails with
`InvalidArgument` and leaves the store unchanged, and in every
reachable store every shot satisfies `frame_end ≥ frame_start`, so the
client-computed duration `frame_end - frame_start + 1` is at least 1. -/
theorem createShot_frame_order (s : Store) (hs : Reachable s)
    (pc seq name : String) (fs fe : Int) (d : Option String) (hlt : fe < fs) :
    createShot s pc seq name fs fe d = (s, Except.error Err.InvalidArgument) ∧
      ∀ sh ∈ s.shots, sh.frame_start ≤ sh.frame_end ∧
        1 ≤ sh.frame_end - sh.frame_start + 1 := by
  obtain ⟨-, -, hS⟩ := storeInv_reachable hs
  refine ⟨?_, fun sh hsh => ⟨hS sh hsh, by have := hS sh hsh; omega⟩⟩
  unfold createShot
  rw [if_pos hlt]

theorem createShot_frame_order_witness :
    (1001 : Int) < 1100 ∧
      createShot Store.init "MYFILM" "SQ010" "SQ010_0010" 1100 1001 none
        = (Store.init, Except.error Err.InvalidArgument) :=
  ⟨by decide,
    (createShot_frame_order Store.init ⟨[], rfl⟩ "MYFILM" "SQ010" "SQ010_0010"
      1100 1001 none (by decide)).1⟩

/-- C4: `createAsset` fails with `InvalidArgument` whenever the
supplied asset type is outside the enumeration
`character, prop, environment, vehicle, fx`, and for an existing
project the call succeeds exactly when the type is in that set. -/
theorem createAsset_type_enum (s : Store) (pc name ty : String) (d : Option String) :
    (ty ∉ assetTypes → createAsset s pc name ty d = (s, Except.error Err.InvalidArgument)) ∧
    (∀ p : Project, findProject s pc = some p →
      ((createAsset s pc name ty d).2.isOk = true ↔ ty ∈ assetTypes)) := by
  constructor
  · intro hty
    unfold createAsset
    rw [if_neg hty]
  · intro p hp
    constructor
    · intro hok
      by_contra hty
      unfold createAsset at hok
      rw [if_neg hty] at hok
      simp [Except.isOk, Except.toBool] at hok
    · intro hty
      unfold createAsset
      rw [if_pos hty, hp]
      rfl

theorem createAsset_type_enum_witness :
    "Character" ∉ assetTypes ∧
      createAsset Store.init "MYFILM" "hero" "Character" none
        = (Store.init, Except.error Err.InvalidArgument) :=
  ⟨by decide, (createAsset_type_enum Store.init "MYFILM" "hero" "Character" none).1 (by decide)⟩

/-- C5: `updateTask` on an unknown id fails with `NotFound`; on a known
task a status-only update returns the task with exactly the new status
and every other field unchanged, rewrites only the matching task in the
store, and keeps every other task. -/
theorem updateTask_partial_update (s : Store) (tid : Nat) (st : String) :
    (s.tasks.find? (fun u => u.id == tid) = none →
      updateTask s tid { status := some st } = (s, Except.error Err.NotFound)) ∧
    (∀ t : Task, s.tasks.find? (fun u => u.id == tid) = some t →
      (updateTask s tid { status := some st }).2 = Except.ok { t with status := st } ∧
      (updateTask s tid { status := some st }).1.tasks
        = s.tasks.map (fun u => if u.id = tid then { u with status := st } else u) ∧
      ∀ u ∈ s.tasks, u.id ≠ tid →
        u ∈ (updateTask s tid { status := some st }).1.tasks) := by
  constructor
  · intro hf
    unfold updateTask
    rw [hf]
  · intro t hf
    unfold updateTask
    rw [hf]
    refine ⟨rfl, rfl, ?_⟩
    intro u hu hne
    have hfix : (fun x : Task => if x.id = tid then applyPatch x { status := some st } else x) u
        = u := if_neg hne
    exact hfix ▸ List.mem_map_of_mem _ hu

theorem updateTask_partial_update_witness :
    (updateTask demoTaskStore 1 { status := some "review" }).2
      = Except.ok { demoTask with status := "review" } ∧
    (updateTask demoTaskStore 1 { status := some "review" }).1.tasks
      = demoTaskStore.tasks.map
          (fun u => if u.id = 1 then { u with status := "review" } else u) ∧
    ∀ u ∈ demoTaskStore.tasks, u.id ≠ 1 →
      u ∈ (updateTask demoTaskStore 1 { status := some "review" }).1.tasks :=
  (updateTask_partial_update demoTaskStore 1 "review").2 demoTask rfl

/-- C6: every failing command — any create/update returning `NotFound`,
`InvalidArgument` or `DuplicateKey` — leaves the whole store unchanged
(atomic per-command application). -/
theorem failed_command_unchanged (s : Store) (c : Cmd) (e : Err)
    (h : (applyCmd s c).2 = some e) : (applyCmd s c).1 = s := by
  cases c with
  | createProject name code d =>
    simp only [applyCmd] at h ⊢
    rw [toResult_fst]
    exact createProject_error_fst s name code d e (toResult_error _ e h)
  | createAsset pc name ty d =>
    simp only [applyCmd] at h ⊢
    rw [toResult_fst]
    exact createAsset_error_fst s pc name ty d e (toResult_error _ e h)
  | createShot pc seq name fs fe d =>
    simp only [applyCmd] at h ⊢
    rw [toResult_fst]
    exact createShot_error_fst s pc seq name fs fe d e (toResult_error _ e h)
  | createTask et eid name asg pr =>
    simp only [applyCmd] at h ⊢
    rw [toResult_fst]
    exact createTask_error_fst s et eid name asg pr e (toResult_error _ e h)
  | updateTask tid patch =>
    simp only [applyCmd] at h ⊢
    rw [toResult_fst]
    exact updateTask_error_fst s tid patch e (toResult_error _ e h)
  | createVersion tid p n cb =>
    simp only [applyCmd] at h ⊢
    rw [toResult_fst]
    exact createVersion_error_fst s tid p n cb e (toResult_error _ e h)

theorem failed_command_unchanged_witness :
    (applyCmd Store.init (Cmd.updateTask 1 { status := some "review" })).2
      = some Err.NotFound ∧
    (applyCmd Store.init (Cmd.updateTask 1 { status := some "review" })).1 = Store.init :=
  ⟨rfl, failed_command_unchanged Store.init _ Err.NotFound rfl⟩

/-- C7: `findAssets(projectCode, assetType?)` returns exactly the
assets of that project whose type matches the optional filter (all of
the project's assets when the filter is absent), as a sublist of the
asset list, i.e. in insertion order, excluding all assets of other
types. -/
theorem findAssets_filter (s : Store) (pc : String) (ty : Option String) (p : Project)
    (hp : findProject s pc = some p) :
    (findAssets s pc ty).Sublist s.assets ∧
    ∀ a : Asset, a ∈ findAssets s pc ty ↔
      (a ∈ s.assets ∧ a.project_id = p.id ∧ ∀ t, ty = some t → a.asset_type = t) := by
  unfold findAssets
  rw [hp]
  constructor
  · exact List.filter_sublist _
  · intro a
    rw [List.mem_filter]
    cases ty with
    | none => simp [and_assoc]
    | some t0 => simp [and_assoc]

theorem findAssets_filter_witness :
    (findAssets demoAssetStore "MYFILM" (some "character")).Sublist demoAssetStore.assets ∧
    ∀ a : Asset, a ∈ findAssets demoAssetStore "MYFILM" (some "character") ↔
      (a ∈ demoAssetStore.assets ∧ a.project_id = demoProject.id ∧
        ∀ t, (some "character" : Option String) = some t → a.asset_type = t) := by
  have hM : "MYFILM".toUpper = "MYFILM" := by
    rw [toUpper_eq]
    decide
  have hp : findProject demoAssetStore "MYFILM" = some demoProject := by
    unfold findProject
    rw [hM]
    decide
  exact findAssets_filter demoAssetStore "MYFILM" (some "character") demoProject hp

/-- C8: the client-side cycle helper maps each of the four ring
statuses to the next one in
waiting → in_progress → review → approved → waiting, and `updateTask`
accepts the requested transition from any current status (no
transition-order validation). -/
theorem statusCycle_ring (s : Store) (tid : Nat) (t : Task) :
    (AppTsx.cycleStatus "waiting" = "in_progress" ∧
     AppTsx.cycleStatus "in_progress" = "review" ∧
     AppTsx.cycleStatus "review" = "approved" ∧
     AppTsx.cycleStatus "approved" = "waiting") ∧
    (s.tasks.find? (fun u => u.id == tid) = some t →
      (updateTask s tid { status := some (AppTsx.cycleStatus t.status) }).2
        = Except.ok { t with status := AppTsx.cycleStatus t.status }) := by
  constructor
  · exact ⟨by decide, by decide, by decide, by decide⟩
  · intro hf
    unfold updateTask
    rw [hf]
    rfl

theorem statusCycle_ring_witness :
    (updateTask demoTaskStore 1 { status := some (AppTsx.cycleStatus demoTask.status) }).2
      = Except.ok { demoTask with status := AppTsx.cycleStatus demoTask.status } :=
  (statusCycle_ring demoTaskStore 1 demoTask).2 rfl

/-- C9 counterexample: the three badge helpers do not compute the same
function — on the status `active` the dashboard's `statusBadge` returns
the success class while the legacy `statusClass` returns the empty
string. -/
theorem statusBadge_variants_counterexample :
    AppTsx.statusBadge "active" ≠ Part001.statusClass "active" := by
  decide

/-- C9 (amended): away from the two statuses on which the variants
genuinely diverge — `active` (missing from the `statusClass` switch)
and `pending_review` (present only in the dashboard `statusBadge`) —
the three helpers return the same class string. -/
theorem statusBadge_variants_agree (st : String)
    (h1 : st ≠ "active") (h2 : st ≠ "pending_review") :
    AppTsx.statusBadge st = Part000.statusBadge st ∧
    Part000.statusBadge st = Part001.statusClass st := by
  unfold AppTsx.statusBadge Part000.statusBadge Part001.statusClass
  refine ⟨?_, ?_⟩ <;> split_ifs <;> simp_all

theorem statusBadge_variants_agree_witness :
    AppTsx.statusBadge "review" = Part000.statusBadge "review" ∧
    Part000.statusBadge "review" = Part001.statusClass "review" :=
  statusBadge_variants_agree "review" (by decide) (by decide)

/-- C10: the task-creation modal can only request priorities from
25, 50, 75 (defaulting to 50), all of which lie in the 0–100
range, so `createTask`'s clamping is the identity on every priority
this UI can send. -/
theorem createTaskModal_priority_range :
    AppTsx.defaultTaskPriority ∈ AppTsx.taskPriorityOptions ∧
    AppTsx.jsNumber AppTsx.defaultTaskPriority = 50 ∧
    ∀ p ∈ AppTsx.taskPriorityOptions,
      (AppTsx.jsNumber p = 25 ∨ AppTsx.jsNumber p = 50 ∨ AppTsx.jsNumber p = 75) ∧
      0 ≤ AppTsx.jsNumber p ∧ AppTsx.jsNumber p ≤ 100 ∧
      clampPriority (AppTsx.jsNumber p) = AppTsx.jsNumber p := by
  decide

theorem createTaskModal_priority_range_witness :
    (AppTsx.jsNumber "25" = 25 ∨ AppTsx.jsNumber "25" = 50 ∨ AppTsx.jsNumber "25" = 75) ∧
    0 ≤ AppTsx.jsNumber "25" ∧ AppTsx.jsNumber "25" ≤ 100 ∧
    clampPriority (AppTsx.jsNumber "25") = AppTsx.jsNumber "25" :=
  createTaskModal_priority_range.2.2 "25" (by decide)

end OpenGrid
